import Mathlib

/-!
Shallow embedding of `extras/create_send_notifications.py` from `cyhy-reports`:
the CyHy notification batch (org resolution, per-org PDF generation, delivery
gating, and the two cleanup deletion passes), together with proofs of its
specified properties.
-/

namespace CyhyReports

/-- An organization id (the Mongo document `_id`), an opaque string token. -/
abbrev OrgId := String

/-- A `RequestDoc` as read by this script: the projection `{"_id": 1, "children": 1}`
plus the `report_types` field that the query filters on.  An absent `children`
(or `report_types`) field is modelled as the empty list, which is falsy in
Python exactly as an absent key is under `.get`. -/
structure RequestDoc where
  id : OrgId
  report_types : List String
  children : List OrgId
deriving DecidableEq

/-- A `NotificationDoc` with the two fields the deletion passes test:
`ticket_owner` and `generated_for`. -/
structure NotificationDoc where
  ticket_owner : OrgId
  generated_for : List String
deriving DecidableEq

/-- The value of `results` returned by `NotificationGenerator.generate_notification`
when it is not `None`: a dictionary whose `"notifications"` entry may be absent
(`none`) or hold a sequence. -/
structure GenResults where
  notifications : Option (List String)
deriving DecidableEq

/-- The pair `(was_encrypted, results)` returned by
`NotificationGenerator.generate_notification`. -/
structure GenResponse where
  was_encrypted : Bool
  results : Option GenResults
deriving DecidableEq

/-- The Python exceptions this script can raise unhandled. -/
inductive PyError where
  | keyError
  | fileExistsError
  | isADirectoryError
deriving DecidableEq

/-- The per-organization generation outcome named by the spec. -/
inductive Outcome where
  | Encrypted
  | EmptySkip
  | Failure
deriving DecidableEq

/-- The outcome mapping implemented by the `if was_encrypted / elif results is not
None and len(results["notifications"]) == 0 / else` branch in
`generate_notification_pdfs`.  Looking up `results["notifications"]` on a
dictionary lacking that key raises `KeyError`. -/
def outcomeOf (r : GenResponse) : Except PyError Outcome :=
  if r.was_encrypted then .ok .Encrypted
  else
    match r.results with
    | none => .ok .Failure
    | some res =>
      match res.notifications with
      | none => .error .keyError
      | some ns => if ns.length = 0 then .ok .EmptySkip else .ok .Failure

/-- The loop body of `generate_notification_pdfs`, with the running
`num_pdfs_created` accumulator made explicit. -/
def genPdfsGo (gen : OrgId → GenResponse) : List OrgId → Int → Except PyError Int
  | [], num_pdfs_created => .ok num_pdfs_created
  | org_id :: rest, num_pdfs_created =>
    let r := gen org_id
    if r.was_encrypted then genPdfsGo gen rest (num_pdfs_created + 1)
    else
      match r.results with
      | none => .ok (-1)
      | some res =>
        match res.notifications with
        | none => .error .keyError
        | some ns =>
          if ns.length = 0 then genPdfsGo gen rest num_pdfs_created else .ok (-1)

/-- `generate_notification_pdfs(db, org_ids, master_report_key)`: the generator
call is abstracted as a function `gen` from organization id to the response of
`generate_notification` (the `db`/key arguments only feed that call).  Returns
the count of PDFs created, `-1` on the first unknown shape, or the unhandled
exception. -/
def generate_notification_pdfs (gen : OrgId → GenResponse) (org_ids : List OrgId) :
    Except PyError Int :=
  genPdfsGo gen org_ids 0

/-- All direct children declared for a given parent id in the request store. -/
def childrenOf (db : List RequestDoc) (p : OrgId) : List OrgId :=
  (db.filter (fun d => d.id == p)).flatMap (fun d => d.children)

/-- The child relation of the request store: `c` is a declared direct child of
the organization with id `p`. -/
def childRel (db : List RequestDoc) (p c : OrgId) : Prop :=
  ∃ d ∈ db, d.id = p ∧ c ∈ d.children

/-- Ids reachable from `r` through the child relation by at least one and at
most `n` steps. -/
def descendantsFuel (db : List RequestDoc) : Nat → OrgId → List OrgId
  | 0, _ => []
  | n + 1, r => (childrenOf db r).flatMap (fun c => c :: descendantsFuel db n c)

/-- Modelled from the spec: `db.RequestDoc.get_all_descendants` lives in the
external `cyhy.db` package, not in this repository.  The spec describes it as
"recursively add every descendant id (transitive closure over the child
relation)".  Bounded iteration with fuel `db.length` computes exactly this
closure whenever the child relation is acyclic (the spec assumes a forest). -/
def get_all_descendants (db : List RequestDoc) (root : OrgId) : List OrgId :=
  descendantsFuel db db.length root

/-- The `.sort([("_id", 1)])` clause on the root query: ascending by id. -/
def sortById (l : List RequestDoc) : List RequestDoc :=
  l.insertionSort (fun a b => a.id ≤ b.id)

/-- One iteration of the loop in `build_cyhy_org_list`: add the root's id to the
accumulated set, and if the root declares children (a truthy `children` value)
also add every descendant. -/
def buildStep (db : List RequestDoc) (acc : List OrgId) (d : RequestDoc) : List OrgId :=
  let acc1 := acc.insert d.id
  if d.children.isEmpty then acc1
  else (get_all_descendants db d.id).foldl (fun a x => a.insert x) acc1

/-- `build_cyhy_org_list(db)`: iterate over the request docs whose
`report_types` contains `"CYHY"`, sorted by id, accumulating ids into a set
(modelled as a duplicate-free list built with `List.insert`). -/
def build_cyhy_org_list (db : List RequestDoc) : List OrgId :=
  (sortById (db.filter (fun d => decide ("CYHY" ∈ d.report_types)))).foldl
    (buildStep db) []

/-- The child relation forms a forest: request ids are unique, no id is a
proper descendant of itself, and every id has at most one declared parent. -/
def IsForest (db : List RequestDoc) : Prop :=
  (db.map (fun d => d.id)).Nodup ∧
  (∀ v, ¬ Relation.TransGen (childRel db) v v) ∧
  (∀ p q c, childRel db p c → childRel db q c → p = q)

/-- The state of the `notification_archive/latest` filesystem path: absent, a
symbolic link (recording whether its target currently exists, i.e. whether the
link is dangling), a regular file, or a directory. -/
inductive PathState where
  | absent
  | link (target : String) (targetExists : Bool)
  | file
  | dir
deriving DecidableEq

/-- `os.path.exists`: follows symbolic links, so a dangling link reports
`False`. -/
def path_exists : PathState → Bool
  | .absent => false
  | .link _ targetExists => targetExists
  | .file => true
  | .dir => true

/-- `os.remove`: removes a file or a symbolic link (without following it);
raises `IsADirectoryError` on a directory.  The script only calls it on paths
for which `os.path.exists` returned `True`, so the absent case is arbitrary
here and modelled as a no-op error-free removal. -/
def os_remove : PathState → Except PyError PathState
  | .dir => .error .isADirectoryError
  | _ => .ok .absent

/-- `os.symlink(target, path)`: raises `FileExistsError` when the path already
exists in any form (including as a dangling link); otherwise creates the link,
which dangles iff the target does not exist. -/
def os_symlink (target : String) (targetExists : Bool) : PathState → Except PyError PathState
  | .absent => .ok (.link target targetExists)
  | _ => .error .fileExistsError

/-- The symlink maintenance block of `main`:
`if os.path.exists(latest): os.remove(latest)` followed by
`os.symlink(archive_dir, latest)`.  `targetExists` records whether the archive
directory being pointed to exists (it does in `main`, having just been
created). -/
def updateLatestSymlink (st : PathState) (target : String) (targetExists : Bool) :
    Except PyError PathState :=
  if path_exists st then
    match os_remove st with
    | .error e => .error e
    | .ok st1 => os_symlink target targetExists st1
  else os_symlink target targetExists st

/-- The accepted values of `logging.basicConfig(level=...)` for a string level:
`log_level.upper()` must be a registered level name, else `ValueError`. -/
def VALID_LOG_LEVELS : List String :=
  ["CRITICAL", "FATAL", "ERROR", "WARN", "WARNING", "INFO", "DEBUG", "NOTSET"]

/-- `log_level.upper()`, mapping the uppercase conversion over the string's
character data. -/
def strUpper (s : String) : String :=
  ⟨s.data.map Char.toUpper⟩

/-- Whether the `--log-level` option is accepted by the logging setup. -/
def validLogLevel (log_level : String) : Bool :=
  VALID_LOG_LEVELS.contains (strUpper log_level)

deriving instance DecidableEq for Except

/-- The observable effects of one run of `main`: the returned exit value (or
the unhandled exception that aborted the run), whether the mailer subprocess
was started, the records removed by each of the two deletion passes, the
notification store contents after the run, and the final state of the
`latest` path. -/
structure MainRun where
  outcome : Except PyError Int
  mailerInvoked : Bool
  deletedForSent : List NotificationDoc
  deletedOutOfScope : List NotificationDoc
  notifsAfter : List NotificationDoc
  latestAfter : PathState
deriving DecidableEq

/-- `main()`.  Inputs: the `--log-level` option, the request and notification
collections of the store, the generator behaviour `gen`, the initial state of
the `latest` path, the dated archive directory path, and the exit code of the
`docker compose` mailer invocation.  Mirrors the source order: logging setup
(exit 1 on a bad level), org resolution, PDF generation, symlink replacement,
then — because Python's `if num_pdfs_created:` tests integer truthiness, i.e.
nonzero — the mailer plus the `generated_for != []` deletion pass, and finally
the `ticket_owner $nin cyhy_org_ids` deletion pass and `return 0`. -/
def main (log_level : String) (reqs : List RequestDoc) (notifs : List NotificationDoc)
    (gen : OrgId → GenResponse) (latest0 : PathState) (archive_dir : String)
    (mailerExit : Int) : MainRun :=
  if !(validLogLevel log_level) then
    ⟨.ok 1, false, [], [], notifs, latest0⟩
  else
    let cyhy_org_ids := build_cyhy_org_list reqs
    match generate_notification_pdfs gen cyhy_org_ids with
    | .error e => ⟨.error e, false, [], [], notifs, latest0⟩
    | .ok num_pdfs_created =>
      match updateLatestSymlink latest0 archive_dir true with
      | .error e => ⟨.error e, false, [], [], notifs, latest0⟩
      | .ok latest1 =>
        if num_pdfs_created ≠ 0 then
          let deleted1 := notifs.filter (fun n => !n.generated_for.isEmpty)
          let notifs1 := notifs.filter (fun n => n.generated_for.isEmpty)
          let deleted2 := notifs1.filter (fun n => !(decide (n.ticket_owner ∈ cyhy_org_ids)))
          let notifs2 := notifs1.filter (fun n => decide (n.ticket_owner ∈ cyhy_org_ids))
          ⟨.ok 0, true, deleted1, deleted2, notifs2, latest1⟩
        else
          let deleted2 := notifs.filter (fun n => !(decide (n.ticket_owner ∈ cyhy_org_ids)))
          let notifs2 := notifs.filter (fun n => decide (n.ticket_owner ∈ cyhy_org_ids))
          ⟨.ok 0, false, [], deleted2, notifs2, latest1⟩


/-- A generation response with `was_encrypted` false and a non-null `results`
dictionary that lacks the `"notifications"` key. -/
def respMissingKey : GenResponse := ⟨false, some ⟨none⟩⟩

/-- A two-doc store: a `CYHY` root `"A"` with child `"B"`, and `"B"` itself
with no report types and no children. -/
def reqsAB : List RequestDoc := [⟨"A", ["CYHY"], ["B"]⟩, ⟨"B", [], []⟩]

/-- A one-doc store: a single `CYHY` root `"A"` with no children. -/
def reqsA : List RequestDoc := [⟨"A", ["CYHY"], []⟩]

/-- Two notification records: one already rendered (owned by `"A"`), one never
rendered and owned by an out-of-scope organization `"Z"`. -/
def notifsTwo : List NotificationDoc := [⟨"A", ["run1"]⟩, ⟨"Z", []⟩]

/-- A generator that always reports the unknown shape (`was_encrypted` false,
`results` null). -/
def genAllFail : OrgId → GenResponse := fun _ => ⟨false, none⟩

/-- A generator that always reports no pending notifications. -/
def genAllEmpty : OrgId → GenResponse := fun _ => ⟨false, some ⟨some []⟩⟩

/-- A generator that always produces an encrypted PDF. -/
def genAllEncrypted : OrgId → GenResponse := fun _ => ⟨true, none⟩

/-- A generator that encrypts for `"A"` and reports the unknown shape for
every other organization. -/
def genOkThenFail : OrgId → GenResponse :=
  fun o => if o = "A" then ⟨true, some ⟨some ["n1"]⟩⟩ else ⟨false, none⟩

/-- A generator that reports no pending notifications for `"A"` and a non-null
`results` lacking the `"notifications"` key for every other organization. -/
def genOkThenMissingKey : OrgId → GenResponse :=
  fun o => if o = "A" then ⟨false, some ⟨some []⟩⟩ else ⟨false, some ⟨none⟩⟩

/-- Unfolding one step of the generation loop through the outcome mapping. -/
theorem genPdfsGo_cons (gen : OrgId → GenResponse) (o : OrgId) (rest : List OrgId)
    (n : Int) :
    genPdfsGo gen (o :: rest) n =
      match outcomeOf (gen o) with
      | .ok .Encrypted => genPdfsGo gen rest (n + 1)
      | .ok .EmptySkip => genPdfsGo gen rest n
      | .ok .Failure => .ok (-1)
      | .error e => .error e := by
  rcases hr : gen o with ⟨we, res⟩
  cases we with
  | true => simp [genPdfsGo, outcomeOf, hr]
  | false =>
    cases res with
    | none => simp [genPdfsGo, outcomeOf, hr]
    | some r =>
      cases hn : r.notifications with
      | none => simp [genPdfsGo, outcomeOf, hr, hn]
      | some ns =>
        by_cases hl : ns.length = 0 <;> simp [genPdfsGo, outcomeOf, hr, hn, hl]


/-- Membership in `childrenOf` coincides with the child relation. -/
theorem mem_childrenOf {db : List RequestDoc} {p c : OrgId} :
    c ∈ childrenOf db p ↔ childRel db p c := by
  unfold childrenOf childRel
  simp only [List.mem_flatMap, List.mem_filter, beq_iff_eq]
  constructor
  · rintro ⟨d, ⟨hdb, hid⟩, hc⟩
    exact ⟨d, hdb, hid, hc⟩
  · rintro ⟨d, hdb, hid, hc⟩
    exact ⟨d, ⟨hdb, hid⟩, hc⟩

/-- Unfolding one step of the bounded descendant traversal. -/
theorem mem_descendantsFuel_succ {db : List RequestDoc} {n : Nat} {r x : OrgId} :
    x ∈ descendantsFuel db (n + 1) r ↔
      ∃ c ∈ childrenOf db r, x = c ∨ x ∈ descendantsFuel db n c := by
  constructor
  · intro h
    obtain ⟨c, hc, hx⟩ := List.mem_flatMap.mp h
    exact ⟨c, hc, List.mem_cons.mp hx⟩
  · rintro ⟨c, hc, hx⟩
    exact List.mem_flatMap.mpr ⟨c, hc, List.mem_cons.mpr hx⟩

/-- More fuel reaches at least as many descendants. -/
theorem descendantsFuel_mono {db : List RequestDoc} :
    ∀ {n m : Nat} {r x : OrgId}, n ≤ m → x ∈ descendantsFuel db n r →
      x ∈ descendantsFuel db m r := by
  intro n
  induction n with
  | zero => intro m r x _ h; simp [descendantsFuel] at h
  | succ k ih =>
    intro m r x hnm hx
    obtain ⟨m1, rfl⟩ : ∃ m1, m = m1 + 1 := ⟨m - 1, by omega⟩
    obtain ⟨c, hc, hcase⟩ := mem_descendantsFuel_succ.mp hx
    exact mem_descendantsFuel_succ.mpr ⟨c, hc, hcase.imp id (fun h => ih (by omega) h)⟩

/-- Every id produced by the bounded traversal is a transitive descendant. -/
theorem descendantsFuel_sound {db : List RequestDoc} :
    ∀ {n : Nat} {r x : OrgId}, x ∈ descendantsFuel db n r →
      Relation.TransGen (childRel db) r x := by
  intro n
  induction n with
  | zero => intro r x h; simp [descendantsFuel] at h
  | succ k ih =>
    intro r x hx
    obtain ⟨c, hc, hcase⟩ := mem_descendantsFuel_succ.mp hx
    have hrc : childRel db r c := mem_childrenOf.mp hc
    rcases hcase with rfl | hx1
    · exact Relation.TransGen.single hrc
    · exact Relation.TransGen.head hrc (ih hx1)

/-- Extending a bounded traversal by one further child step. -/
theorem descendantsFuel_snoc {db : List RequestDoc} :
    ∀ {n : Nat} {r x y : OrgId}, x ∈ descendantsFuel db n r → childRel db x y →
      y ∈ descendantsFuel db (n + 1) r := by
  intro n
  induction n with
  | zero => intro r x y h _; simp [descendantsFuel] at h
  | succ k ih =>
    intro r x y hx hxy
    obtain ⟨c, hc, hcase⟩ := mem_descendantsFuel_succ.mp hx
    rcases hcase with rfl | hx1
    · refine mem_descendantsFuel_succ.mpr ⟨x, hc, Or.inr ?_⟩
      exact mem_descendantsFuel_succ.mpr ⟨y, mem_childrenOf.mpr hxy, Or.inl rfl⟩
    · exact mem_descendantsFuel_succ.mpr ⟨c, hc, Or.inr (ih hx1 hxy)⟩

/-- Every transitive descendant is produced by the traversal at some fuel. -/
theorem transGen_exists_fuel {db : List RequestDoc} {r x : OrgId}
    (h : Relation.TransGen (childRel db) r x) :
    ∃ n, x ∈ descendantsFuel db n r := by
  induction h with
  | @single b h1 =>
    exact ⟨1, mem_descendantsFuel_succ.mpr ⟨b, mem_childrenOf.mpr h1, Or.inl rfl⟩⟩
  | @tail b c _ hbc ih =>
    obtain ⟨n, hn⟩ := ih
    exact ⟨n + 1, descendantsFuel_snoc hn hbc⟩

/-- A bounded-traversal member is the endpoint of a child-relation chain whose
length is within the fuel. -/
theorem descendantsFuel_to_chain {db : List RequestDoc} :
    ∀ {n : Nat} {r x : OrgId}, x ∈ descendantsFuel db n r →
      ∃ l, l.length + 1 ≤ n ∧ List.Chain (childRel db) r (l ++ [x]) := by
  intro n
  induction n with
  | zero => intro r x h; simp [descendantsFuel] at h
  | succ k ih =>
    intro r x hx
    obtain ⟨c, hc, hcase⟩ := mem_descendantsFuel_succ.mp hx
    have hrc := mem_childrenOf.mp hc
    rcases hcase with rfl | hx1
    · refine ⟨[], ?_, by simp [List.chain_cons, hrc]⟩
      simp only [List.length_nil]
      omega
    · obtain ⟨l, hlen, hch⟩ := ih hx1
      refine ⟨c :: l, ?_, ?_⟩
      · simp only [List.length_cons]
        omega
      · simp [List.chain_cons, hrc, hch]

/-- A chain within the fuel bound lands in the bounded traversal. -/
theorem chain_to_descendantsFuel {db : List RequestDoc} :
    ∀ {l : List OrgId} {r x : OrgId} {n : Nat},
      List.Chain (childRel db) r (l ++ [x]) → l.length + 1 ≤ n →
      x ∈ descendantsFuel db n r := by
  intro l
  induction l with
  | nil =>
    intro r x n hch hn
    obtain ⟨m, rfl⟩ : ∃ m, n = m + 1 := ⟨n - 1, by omega⟩
    simp only [List.nil_append, List.chain_cons] at hch
    exact mem_descendantsFuel_succ.mpr ⟨x, mem_childrenOf.mpr hch.1, Or.inl rfl⟩
  | cons c l1 ih =>
    intro r x n hch hn
    obtain ⟨m, rfl⟩ : ∃ m, n = m + 1 := ⟨n - 1, by omega⟩
    simp only [List.cons_append, List.chain_cons] at hch
    refine mem_descendantsFuel_succ.mpr ⟨c, mem_childrenOf.mpr hch.1, Or.inr ?_⟩
    refine ih hch.2 ?_
    simp only [List.length_cons] at hn
    omega

/-- Every vertex of a chain is a transitive descendant of its start. -/
theorem chain_reaches {db : List RequestDoc} :
    ∀ {l : List OrgId} {r v : OrgId}, List.Chain (childRel db) r l → v ∈ l →
      Relation.TransGen (childRel db) r v := by
  intro l
  induction l with
  | nil => intro r v _ hv; simp at hv
  | cons c l1 ih =>
    intro r v hch hv
    rw [List.chain_cons] at hch
    rcases List.mem_cons.mp hv with rfl | hv1
    · exact Relation.TransGen.single hch.1
    · exact Relation.TransGen.head hch.1 (ih hch.2 hv1)

/-- With an acyclic child relation, chains never repeat a vertex. -/
theorem chain_nodup {db : List RequestDoc}
    (hacy : ∀ v, ¬ Relation.TransGen (childRel db) v v) :
    ∀ {l : List OrgId} {r : OrgId}, List.Chain (childRel db) r l → (r :: l).Nodup := by
  intro l
  induction l with
  | nil => intro r _; simp
  | cons c l1 ih =>
    intro r hch
    rw [List.chain_cons] at hch
    refine List.nodup_cons.mpr ⟨?_, ih hch.2⟩
    intro hr
    rcases List.mem_cons.mp hr with rfl | hr1
    · exact hacy r (Relation.TransGen.single hch.1)
    · exact hacy r (Relation.TransGen.head hch.1 (chain_reaches hch.2 hr1))

/-- Every chain vertex except the endpoint declares a child, hence is the id of
some request doc. -/
theorem chain_sources_mem {db : List RequestDoc} :
    ∀ {l : List OrgId} {r x : OrgId}, List.Chain (childRel db) r (l ++ [x]) →
      ∀ v ∈ r :: l, v ∈ db.map (fun d => d.id) := by
  intro l
  induction l with
  | nil =>
    intro r x hch v hv
    simp only [List.nil_append, List.chain_cons] at hch
    obtain ⟨d, hd, hdid, _⟩ := hch.1
    simp only [List.mem_singleton] at hv
    subst hv
    exact List.mem_map.mpr ⟨d, hd, hdid⟩
  | cons c l1 ih =>
    intro r x hch v hv
    simp only [List.cons_append, List.chain_cons] at hch
    rcases List.mem_cons.mp hv with rfl | hv1
    · obtain ⟨d, hd, hdid, _⟩ := hch.1
      exact List.mem_map.mpr ⟨d, hd, hdid⟩
    · exact ih hch.2 v hv1

/-- Under an acyclic child relation, every chain fits within `db.length`: its
vertices short of the endpoint are pairwise distinct ids of request docs. -/
theorem chain_length_bound {db : List RequestDoc}
    (hacy : ∀ v, ¬ Relation.TransGen (childRel db) v v)
    {l : List OrgId} {r x : OrgId}
    (hch : List.Chain (childRel db) r (l ++ [x])) :
    l.length + 1 ≤ db.length := by
  have hnd : (r :: (l ++ [x])).Nodup := chain_nodup hacy hch
  have hnd2 : (r :: l).Nodup :=
    hnd.sublist (List.sublist_append_left (r :: l) [x])
  have hsubset : (r :: l) ⊆ db.map (fun d => d.id) :=
    fun v hv => chain_sources_mem hch v hv
  have hlen := (hnd2.subperm hsubset).length_le
  simpa using hlen

/-- On a store with an acyclic child relation, `get_all_descendants` computes
exactly the transitive closure of the child relation. -/
theorem mem_get_all_descendants {db : List RequestDoc}
    (hacy : ∀ v, ¬ Relation.TransGen (childRel db) v v)
    {r x : OrgId} :
    x ∈ get_all_descendants db r ↔ Relation.TransGen (childRel db) r x := by
  constructor
  · exact descendantsFuel_sound
  · intro h
    obtain ⟨n, hn⟩ := transGen_exists_fuel h
    obtain ⟨l, _, hch⟩ := descendantsFuel_to_chain hn
    exact chain_to_descendantsFuel hch (chain_length_bound hacy hch)

/-- Membership after folding plain set insertion. -/
theorem mem_foldl_insert {l acc : List OrgId} {x : OrgId} :
    x ∈ l.foldl (fun a y => a.insert y) acc ↔ x ∈ acc ∨ x ∈ l := by
  induction l generalizing acc with
  | nil => simp
  | cons c l1 ih =>
    simp only [List.foldl_cons, ih, List.mem_insert_iff, List.mem_cons]
    tauto

/-- Folding set insertion preserves freedom from duplicates. -/
theorem nodup_foldl_insert {l : List OrgId} :
    ∀ {acc : List OrgId}, acc.Nodup → (l.foldl (fun a y => a.insert y) acc).Nodup := by
  induction l with
  | nil => intro acc h; simpa
  | cons c l1 ih => intro acc h; exact ih h.insert

/-- Membership after one `build_cyhy_org_list` loop iteration. -/
theorem mem_buildStep {db : List RequestDoc} {acc : List OrgId} {d : RequestDoc}
    {x : OrgId} :
    x ∈ buildStep db acc d ↔
      x ∈ acc ∨ x = d.id ∨ (d.children ≠ [] ∧ x ∈ get_all_descendants db d.id) := by
  unfold buildStep
  by_cases hc : d.children.isEmpty = true
  · rw [if_pos hc]
    have hnil : d.children = [] := List.isEmpty_iff.mp hc
    simp [List.mem_insert_iff, hnil]
    tauto
  · rw [if_neg hc]
    have hne : d.children ≠ [] := fun h => hc (List.isEmpty_iff.mpr h)
    simp [mem_foldl_insert, List.mem_insert_iff, hne]
    tauto

/-- One loop iteration preserves freedom from duplicates. -/
theorem nodup_buildStep {db : List RequestDoc} {acc : List OrgId} {d : RequestDoc}
    (h : acc.Nodup) : (buildStep db acc d).Nodup := by
  unfold buildStep
  by_cases hc : d.children.isEmpty = true
  · rw [if_pos hc]; exact h.insert
  · rw [if_neg hc]; exact nodup_foldl_insert h.insert

/-- Membership in the whole `build_cyhy_org_list` fold. -/
theorem mem_foldl_buildStep {db : List RequestDoc} :
    ∀ {L : List RequestDoc} {acc : List OrgId} {x : OrgId},
      x ∈ L.foldl (buildStep db) acc ↔
        x ∈ acc ∨ ∃ d ∈ L, x = d.id ∨ (d.children ≠ [] ∧ x ∈ get_all_descendants db d.id) := by
  intro L
  induction L with
  | nil => simp
  | cons d L1 ih =>
    intro acc x
    simp only [List.foldl_cons, ih, mem_buildStep, List.exists_mem_cons_iff]
    exact or_assoc

/-- The whole fold is duplicate-free. -/
theorem nodup_foldl_buildStep {db : List RequestDoc} :
    ∀ {L : List RequestDoc} {acc : List OrgId}, acc.Nodup →
      (L.foldl (buildStep db) acc).Nodup := by
  intro L
  induction L with
  | nil => intro acc h; simpa
  | cons d L1 ih => intro acc h; exact ih (nodup_buildStep h)

/-- Characterization of membership in the resolved org id list. -/
theorem mem_build_cyhy_org_list {db : List RequestDoc} {x : OrgId} :
    x ∈ build_cyhy_org_list db ↔
      ∃ d ∈ db, "CYHY" ∈ d.report_types ∧
        (x = d.id ∨ (d.children ≠ [] ∧ x ∈ get_all_descendants db d.id)) := by
  unfold build_cyhy_org_list sortById
  rw [mem_foldl_buildStep]
  simp only [List.not_mem_nil, false_or, List.mem_insertionSort, List.mem_filter,
    decide_eq_true_iff]
  constructor
  · rintro ⟨d, ⟨hdb, hrt⟩, hP⟩
    exact ⟨d, hdb, hrt, hP⟩
  · rintro ⟨d, hdb, hrt, hP⟩
    exact ⟨d, ⟨hdb, hrt⟩, hP⟩


/-- Stepping over a prefix of organizations whose outcomes are `Encrypted` or
`EmptySkip` only changes the running count. -/
theorem genPdfsGo_append {gen : OrgId → GenResponse} :
    ∀ {pre : List OrgId} (rest : List OrgId),
      (∀ o ∈ pre, outcomeOf (gen o) = .ok .Encrypted ∨ outcomeOf (gen o) = .ok .EmptySkip) →
      ∀ n : Int, ∃ m : Int, genPdfsGo gen (pre ++ rest) n = genPdfsGo gen rest m := by
  intro pre
  induction pre with
  | nil => intro rest _ n; exact ⟨n, rfl⟩
  | cons o pre1 ih =>
    intro rest hpre n
    have hrest : ∀ o1 ∈ pre1,
        outcomeOf (gen o1) = .ok .Encrypted ∨ outcomeOf (gen o1) = .ok .EmptySkip :=
      fun o1 ho1 => hpre o1 (List.mem_cons_of_mem o ho1)
    rcases hpre o (List.mem_cons_self o pre1) with h | h
    · simp only [List.cons_append, genPdfsGo_cons, h]
      exact ih rest hrest (n + 1)
    · simp only [List.cons_append, genPdfsGo_cons, h]
      exact ih rest hrest n

/-- After a prefix of good outcomes, a `Failure` outcome makes the driver
return `-1` at once, whatever follows. -/
theorem genPdfs_fail_aux {gen : OrgId → GenResponse} {pre post : List OrgId}
    {bad : OrgId}
    (hpre : ∀ o ∈ pre, outcomeOf (gen o) = .ok .Encrypted ∨ outcomeOf (gen o) = .ok .EmptySkip)
    (hbad : outcomeOf (gen bad) = .ok .Failure) :
    generate_notification_pdfs gen (pre ++ bad :: post) = .ok (-1) := by
  unfold generate_notification_pdfs
  obtain ⟨m, hm⟩ := genPdfsGo_append (bad :: post) hpre 0
  rw [hm, genPdfsGo_cons, hbad]

/-- Claim C2 (counterexample): the response with `was_encrypted == false` and a
non-null `results` lacking the `"notifications"` entry is none of the two
documented success shapes, yet it is not mapped to `Failure` either — the
lookup `results["notifications"]` raises `KeyError`. -/
theorem outcomeOf_missing_key_not_failure :
    respMissingKey.was_encrypted = false ∧
    respMissingKey.results ≠ none ∧
    outcomeOf respMissingKey ≠ .ok .Encrypted ∧
    outcomeOf respMissingKey ≠ .ok .EmptySkip ∧
    outcomeOf respMissingKey ≠ .ok .Failure ∧
    outcomeOf respMissingKey = .error .keyError := by decide

/-- Claim C2 (amended): the per-organization outcome mapping is deterministic
(a function) and, on every response whose non-null `results` carries the
`"notifications"` entry, total with the documented values: `was_encrypted`
true maps to `Encrypted`; `was_encrypted` false with non-null `results` and an
empty `notifications` sequence maps to `EmptySkip`; null `results` or a
non-empty `notifications` sequence map to `Failure`.  A non-null `results`
lacking the `"notifications"` entry instead raises `KeyError`. -/
theorem outcomeOf_total_on_keyed_shapes (r : GenResponse) :
    (r.was_encrypted = true → outcomeOf r = .ok .Encrypted) ∧
    (r.was_encrypted = false → ∀ res ns, r.results = some res →
      res.notifications = some ns → ns.length = 0 → outcomeOf r = .ok .EmptySkip) ∧
    (r.was_encrypted = false → r.results = none → outcomeOf r = .ok .Failure) ∧
    (r.was_encrypted = false → ∀ res ns, r.results = some res →
      res.notifications = some ns → ns.length ≠ 0 → outcomeOf r = .ok .Failure) ∧
    (r.was_encrypted = false → ∀ res, r.results = some res →
      res.notifications = none → outcomeOf r = .error .keyError) := by
  refine ⟨?_, ?_, ?_, ?_, ?_⟩
  · intro h
    simp [outcomeOf, h]
  · intro hwe res ns hres hns hlen
    simp [outcomeOf, hwe, hres, hns, hlen]
  · intro hwe hres
    simp [outcomeOf, hwe, hres]
  · intro hwe res ns hres hns hlen
    simp [outcomeOf, hwe, hres, hns, hlen]
  · intro hwe res hres hns
    simp [outcomeOf, hwe, hres, hns]

/-- Claim C4: if some organization's response maps to `Failure`, the driver
returns the `-1` failure signal instead of a success count, and the result is
already determined by the generator's behaviour on the organizations up to and
including the failing one — those after it are never consulted. -/
theorem generate_notification_pdfs_fail_fast (gen : OrgId → GenResponse)
    (pre post : List OrgId) (bad : OrgId)
    (hpre : ∀ o ∈ pre, outcomeOf (gen o) = .ok .Encrypted ∨ outcomeOf (gen o) = .ok .EmptySkip)
    (hbad : outcomeOf (gen bad) = .ok .Failure) :
    generate_notification_pdfs gen (pre ++ bad :: post) = .ok (-1) ∧
    ∀ gen2 : OrgId → GenResponse, (∀ o ∈ pre, gen2 o = gen o) → gen2 bad = gen bad →
      generate_notification_pdfs gen2 (pre ++ bad :: post) = .ok (-1) := by
  refine ⟨genPdfs_fail_aux hpre hbad, fun gen2 hag hb => genPdfs_fail_aux ?_ ?_⟩
  · intro o ho
    rw [hag o ho]
    exact hpre o ho
  · rw [hb]
    exact hbad

/-- Witness for the C4 theorem: encrypted for `"A"`, failing shape for `"B"`,
with `"C"` after the failure. -/
theorem generate_notification_pdfs_fail_fast_witness :
    (∀ o ∈ ["A"], outcomeOf (genOkThenFail o) = .ok .Encrypted ∨
      outcomeOf (genOkThenFail o) = .ok .EmptySkip) ∧
    outcomeOf (genOkThenFail "B") = .ok .Failure ∧
    generate_notification_pdfs genOkThenFail (["A"] ++ "B" :: ["C"]) = .ok (-1) :=
  ⟨by decide, by decide,
    (generate_notification_pdfs_fail_fast genOkThenFail ["A"] ["C"] "B"
      (by decide) (by decide)).1⟩

/-- Claim C10: if, after a prefix of good outcomes, some organization's
response has `was_encrypted` false and a non-null `results` lacking the
`"notifications"` entry, the driver raises `KeyError` while evaluating the
empty-skip test: it produces neither a success count nor the `-1` failure
signal. -/
theorem generate_notification_pdfs_missing_key_raises (gen : OrgId → GenResponse)
    (pre post : List OrgId) (bad : OrgId)
    (hpre : ∀ o ∈ pre, outcomeOf (gen o) = .ok .Encrypted ∨ outcomeOf (gen o) = .ok .EmptySkip)
    (hbad : gen bad = ⟨false, some ⟨none⟩⟩) :
    generate_notification_pdfs gen (pre ++ bad :: post) = .error .keyError ∧
    ∀ v : Int, generate_notification_pdfs gen (pre ++ bad :: post) ≠ .ok v := by
  have hout : outcomeOf (gen bad) = .error .keyError := by
    rw [hbad]
    rfl
  have hmain : generate_notification_pdfs gen (pre ++ bad :: post) = .error .keyError := by
    unfold generate_notification_pdfs
    obtain ⟨m, hm⟩ := genPdfsGo_append (bad :: post) hpre 0
    rw [hm, genPdfsGo_cons, hout]
  refine ⟨hmain, fun v hv => ?_⟩
  rw [hmain] at hv
  exact Except.noConfusion hv

/-- Witness for the C10 theorem: empty-skip for `"A"`, missing key for `"B"`. -/
theorem generate_notification_pdfs_missing_key_raises_witness :
    (∀ o ∈ ["A"], outcomeOf (genOkThenMissingKey o) = .ok .Encrypted ∨
      outcomeOf (genOkThenMissingKey o) = .ok .EmptySkip) ∧
    genOkThenMissingKey "B" = ⟨false, some ⟨none⟩⟩ ∧
    generate_notification_pdfs genOkThenMissingKey (["A"] ++ "B" :: ["C"]) = .error .keyError :=
  ⟨by decide, by decide,
    (generate_notification_pdfs_missing_key_raises genOkThenMissingKey ["A"] ["C"] "B"
      (by decide) (by decide)).1⟩


/-- The child relation of the concrete store `reqsAB` is the single edge from
`"A"` to `"B"`. -/
theorem childRel_reqsAB {p c : OrgId} : childRel reqsAB p c ↔ (p = "A" ∧ c = "B") := by
  unfold childRel reqsAB
  constructor
  · rintro ⟨d, hd, hid, hc⟩
    have hd2 : d = (⟨"A", ["CYHY"], ["B"]⟩ : RequestDoc) ∨ d = ⟨"B", [], []⟩ := by
      simpa using hd
    rcases hd2 with rfl | rfl
    · exact ⟨hid.symm, by simpa using hc⟩
    · simp at hc
  · rintro ⟨rfl, rfl⟩
    exact ⟨⟨"A", ["CYHY"], ["B"]⟩, by simp, rfl, by simp⟩

/-- Every transitive-closure step over `reqsAB` goes from `"A"` to `"B"`. -/
theorem transGen_reqsAB {a b : OrgId}
    (h : Relation.TransGen (childRel reqsAB) a b) : a = "A" ∧ b = "B" := by
  induction h with
  | @single x hx => exact childRel_reqsAB.mp hx
  | @tail x y hax hxy ih => exact ⟨ih.1, (childRel_reqsAB.mp hxy).2⟩

/-- The concrete store `reqsAB` is a forest. -/
theorem forest_reqsAB : IsForest reqsAB := by
  refine ⟨by decide, ?_, ?_⟩
  · intro v hv
    obtain ⟨h1, h2⟩ := transGen_reqsAB hv
    rw [h1] at h2
    exact absurd h2 (by decide)
  · intro p q c h1 h2
    rw [(childRel_reqsAB.mp h1).1, (childRel_reqsAB.mp h2).1]

/-- Claim C3: on every forest-shaped request store, the resolved org id list
is duplicate-free, and an id belongs to it exactly when it is the id of an
organization whose `report_types` contains `"CYHY"`, or a transitive
descendant (via the child relation) of such an organization that declares
children.  In particular an organization without `"CYHY"` appears only by
descending from a qualifying root. -/
theorem build_cyhy_org_list_spec (db : List RequestDoc) (hf : IsForest db) (x : OrgId) :
    (build_cyhy_org_list db).Nodup ∧
      (x ∈ build_cyhy_org_list db ↔
        (∃ d ∈ db, x = d.id ∧ "CYHY" ∈ d.report_types) ∨
        (∃ d ∈ db, "CYHY" ∈ d.report_types ∧ d.children ≠ [] ∧
          Relation.TransGen (childRel db) d.id x)) := by
  obtain ⟨-, hacy, -⟩ := hf
  refine ⟨?_, ?_⟩
  · unfold build_cyhy_org_list
    exact nodup_foldl_buildStep List.nodup_nil
  · rw [mem_build_cyhy_org_list]
    constructor
    · rintro ⟨d, hdb, hrt, (rfl | ⟨hch, hdesc⟩)⟩
      · exact Or.inl ⟨d, hdb, rfl, hrt⟩
      · exact Or.inr ⟨d, hdb, hrt, hch, (mem_get_all_descendants hacy).mp hdesc⟩
    · rintro (⟨d, hdb, rfl, hrt⟩ | ⟨d, hdb, hrt, hch, htg⟩)
      · exact ⟨d, hdb, hrt, Or.inl rfl⟩
      · exact ⟨d, hdb, hrt, Or.inr ⟨hch, (mem_get_all_descendants hacy).mpr htg⟩⟩

/-- Witness for the C3 theorem at the concrete two-doc forest, instantiated at
the descendant id `"B"`. -/
theorem build_cyhy_org_list_spec_witness :
    IsForest reqsAB ∧
      ((build_cyhy_org_list reqsAB).Nodup ∧
        ("B" ∈ build_cyhy_org_list reqsAB ↔
          (∃ d ∈ reqsAB, "B" = d.id ∧ "CYHY" ∈ d.report_types) ∨
          (∃ d ∈ reqsAB, "CYHY" ∈ d.report_types ∧ d.children ≠ [] ∧
            Relation.TransGen (childRel reqsAB) d.id "B"))) :=
  ⟨forest_reqsAB, build_cyhy_org_list_spec reqsAB forest_reqsAB "B"⟩


/-- The complete shape of a `main` run that gets past logging setup,
generation, and symlink replacement. -/
theorem main_eq_of_ok {log_level : String} {reqs : List RequestDoc}
    {notifs : List NotificationDoc} {gen : OrgId → GenResponse}
    {latest0 : PathState} {archive_dir : String} {mailerExit : Int}
    {num : Int} {latest1 : PathState}
    (hlog : validLogLevel log_level = true)
    (hgen : generate_notification_pdfs gen (build_cyhy_org_list reqs) = .ok num)
    (hlink : updateLatestSymlink latest0 archive_dir true = .ok latest1) :
    main log_level reqs notifs gen latest0 archive_dir mailerExit =
      if num ≠ 0 then
        ⟨.ok 0, true, notifs.filter (fun n => !n.generated_for.isEmpty),
          (notifs.filter (fun n => n.generated_for.isEmpty)).filter
            (fun n => !(decide (n.ticket_owner ∈ build_cyhy_org_list reqs))),
          (notifs.filter (fun n => n.generated_for.isEmpty)).filter
            (fun n => decide (n.ticket_owner ∈ build_cyhy_org_list reqs)), latest1⟩
      else
        ⟨.ok 0, false, [],
          notifs.filter (fun n => !(decide (n.ticket_owner ∈ build_cyhy_org_list reqs))),
          notifs.filter (fun n => decide (n.ticket_owner ∈ build_cyhy_org_list reqs)),
          latest1⟩ := by
  simp only [main, hlog, Bool.not_true, Bool.false_eq_true, if_false, hgen, hlink]

/-- Claim C8: an unrecognized log-level string makes `main` return 1 at once:
the mailer is not started, nothing is deleted, the store and the `latest` path
are untouched — and, the statement being universally quantified over the store
contents and the generator, the result does not depend on them. -/
theorem main_invalid_log_level_exits_early (log_level : String)
    (reqs : List RequestDoc) (notifs : List NotificationDoc)
    (gen : OrgId → GenResponse) (latest0 : PathState) (archive_dir : String)
    (mailerExit : Int) (h : validLogLevel log_level = false) :
    main log_level reqs notifs gen latest0 archive_dir mailerExit =
      ⟨.ok 1, false, [], [], notifs, latest0⟩ := by
  unfold main
  rw [h]
  rfl

/-- Witness for the C8 theorem at the log level `"bogus"`. -/
theorem main_invalid_log_level_exits_early_witness :
    validLogLevel "bogus" = false ∧
    main "bogus" reqsA notifsTwo genAllFail .absent "arch" 0 =
      ⟨.ok 1, false, [], [], notifsTwo, .absent⟩ :=
  ⟨by decide,
    main_invalid_log_level_exits_early "bogus" reqsA notifsTwo genAllFail .absent
      "arch" 0 (by decide)⟩

/-- Claim C1 (code evidence): with one resolved organization whose generation
reports the unknown shape, the driver returns the `-1` failure signal, yet
`main` — whose `if num_pdfs_created:` test treats the truthy `-1` as success —
still invokes the mailer, runs both deletion passes (deleting both records of
the store), and returns exit code 0. -/
theorem main_failure_sentinel_treated_as_success :
    generate_notification_pdfs genAllFail (build_cyhy_org_list reqsA) = .ok (-1) ∧
    main "warning" reqsA notifsTwo genAllFail .absent "arch" 0 =
      ⟨.ok 0, true, [⟨"A", ["run1"]⟩], [⟨"Z", []⟩], [], .link "arch" true⟩ := by
  decide

/-- Claim C5: when generation completes with success count 0, the mailer is
not invoked, the post-delivery deletion pass removes nothing, and the
out-of-scope pass still removes exactly the records whose owner is outside
the resolved org list. -/
theorem main_zero_success_skips_delivery {log_level : String}
    {reqs : List RequestDoc} {notifs : List NotificationDoc}
    {gen : OrgId → GenResponse} {latest0 : PathState} {archive_dir : String}
    {mailerExit : Int} {latest1 : PathState}
    (hlog : validLogLevel log_level = true)
    (hgen : generate_notification_pdfs gen (build_cyhy_org_list reqs) = .ok 0)
    (hlink : updateLatestSymlink latest0 archive_dir true = .ok latest1) :
    (main log_level reqs notifs gen latest0 archive_dir mailerExit).mailerInvoked = false ∧
    (main log_level reqs notifs gen latest0 archive_dir mailerExit).deletedForSent = [] ∧
    (main log_level reqs notifs gen latest0 archive_dir mailerExit).deletedOutOfScope =
      notifs.filter (fun n => !(decide (n.ticket_owner ∈ build_cyhy_org_list reqs))) ∧
    (main log_level reqs notifs gen latest0 archive_dir mailerExit).outcome = .ok 0 := by
  rw [main_eq_of_ok hlog hgen hlink]
  simp

/-- Witness for the C5 theorem: one org, generator always empty-skips. -/
theorem main_zero_success_skips_delivery_witness :
    validLogLevel "info" = true ∧
    generate_notification_pdfs genAllEmpty (build_cyhy_org_list reqsA) = .ok 0 ∧
    updateLatestSymlink .absent "arch" true = .ok (.link "arch" true) ∧
    ((main "info" reqsA notifsTwo genAllEmpty .absent "arch" 0).mailerInvoked = false ∧
      (main "info" reqsA notifsTwo genAllEmpty .absent "arch" 0).deletedForSent = [] ∧
      (main "info" reqsA notifsTwo genAllEmpty .absent "arch" 0).deletedOutOfScope =
        notifsTwo.filter
          (fun n => !(decide (n.ticket_owner ∈ build_cyhy_org_list reqsA))) ∧
      (main "info" reqsA notifsTwo genAllEmpty .absent "arch" 0).outcome = .ok 0) :=
  ⟨by decide, by decide, by decide,
    main_zero_success_skips_delivery (by decide)
      (by decide :
        generate_notification_pdfs genAllEmpty (build_cyhy_org_list reqsA) = .ok 0)
      (by decide :
        updateLatestSymlink .absent "arch" true = .ok (.link "arch" true))⟩

/-- Claim C6: when generation completes with a positive success count, the
mailer is invoked and the post-delivery pass deletes exactly the records whose
`generated_for` is non-empty; and since `main` never consults the mailer exit
code for anything but logging, the whole run result is the same for every
mailer exit code. -/
theorem main_post_delivery_cleanup {log_level : String}
    {reqs : List RequestDoc} {notifs : List NotificationDoc}
    {gen : OrgId → GenResponse} {latest0 : PathState} {archive_dir : String}
    {mailerExit : Int} {num : Int} {latest1 : PathState}
    (hlog : validLogLevel log_level = true)
    (hgen : generate_notification_pdfs gen (build_cyhy_org_list reqs) = .ok num)
    (hnum : 0 < num)
    (hlink : updateLatestSymlink latest0 archive_dir true = .ok latest1) :
    (main log_level reqs notifs gen latest0 archive_dir mailerExit).deletedForSent =
      notifs.filter (fun n => !n.generated_for.isEmpty) ∧
    (main log_level reqs notifs gen latest0 archive_dir mailerExit).mailerInvoked = true ∧
    ∀ mailerExit2 : Int,
      main log_level reqs notifs gen latest0 archive_dir mailerExit2 =
        main log_level reqs notifs gen latest0 archive_dir mailerExit := by
  have hne : num ≠ 0 := by omega
  refine ⟨?_, ?_, fun mailerExit2 => rfl⟩ <;>
    rw [main_eq_of_ok hlog hgen hlink] <;> simp [hne]

/-- Witness for the C6 theorem: one org, generator always encrypts. -/
theorem main_post_delivery_cleanup_witness :
    validLogLevel "info" = true ∧
    generate_notification_pdfs genAllEncrypted (build_cyhy_org_list reqsA) = .ok 1 ∧
    (0 : Int) < 1 ∧
    updateLatestSymlink .absent "arch" true = .ok (.link "arch" true) ∧
    ((main "info" reqsA notifsTwo genAllEncrypted .absent "arch" 0).deletedForSent =
        notifsTwo.filter (fun n => !n.generated_for.isEmpty) ∧
      (main "info" reqsA notifsTwo genAllEncrypted .absent "arch" 0).mailerInvoked = true) :=
  ⟨by decide, by decide, by decide, by decide,
    (main_post_delivery_cleanup (by decide)
      (by decide :
        generate_notification_pdfs genAllEncrypted (build_cyhy_org_list reqsA) = .ok 1)
      (by decide : (0 : Int) < 1)
      (by decide :
        updateLatestSymlink .absent "arch" true = .ok (.link "arch" true))).1,
    (main_post_delivery_cleanup (by decide)
      (by decide :
        generate_notification_pdfs genAllEncrypted (build_cyhy_org_list reqsA) = .ok 1)
      (by decide : (0 : Int) < 1)
      (by decide :
        updateLatestSymlink .absent "arch" true = .ok (.link "arch" true))).2.1⟩

/-- Claim C7: in every run reaching the cleanup stage, the out-of-scope pass
deletes exactly the records, among those then still present, whose
`ticket_owner` is outside the resolved org list; when the resolved list is
empty it deletes every record and leaves the store empty. -/
theorem main_out_of_scope_cleanup {log_level : String}
    {reqs : List RequestDoc} {notifs : List NotificationDoc}
    {gen : OrgId → GenResponse} {latest0 : PathState} {archive_dir : String}
    {mailerExit : Int} {num : Int} {latest1 : PathState}
    (hlog : validLogLevel log_level = true)
    (hgen : generate_notification_pdfs gen (build_cyhy_org_list reqs) = .ok num)
    (hlink : updateLatestSymlink latest0 archive_dir true = .ok latest1) :
    (main log_level reqs notifs gen latest0 archive_dir mailerExit).deletedOutOfScope =
      (if num ≠ 0 then notifs.filter (fun n => n.generated_for.isEmpty) else notifs).filter
        (fun n => !(decide (n.ticket_owner ∈ build_cyhy_org_list reqs))) ∧
    (build_cyhy_org_list reqs = [] →
      (main log_level reqs notifs gen latest0 archive_dir mailerExit).deletedOutOfScope =
          notifs ∧
        (main log_level reqs notifs gen latest0 archive_dir mailerExit).notifsAfter = []) := by
  constructor
  · rw [main_eq_of_ok hlog hgen hlink]
    by_cases hne : num ≠ 0 <;> simp [hne]
  · intro hempty
    have hnum0 : num = 0 := by
      rw [hempty] at hgen
      have h0 : generate_notification_pdfs gen [] = .ok 0 := rfl
      rw [h0] at hgen
      injection hgen with h
      exact h.symm
    subst hnum0
    rw [main_eq_of_ok hlog hgen hlink]
    simp [hempty]

/-- Witness for the C7 theorem: an empty request store resolves to no orgs,
and the out-of-scope pass empties the notification store. -/
theorem main_out_of_scope_cleanup_witness :
    validLogLevel "info" = true ∧
    generate_notification_pdfs genAllEmpty (build_cyhy_org_list []) = .ok 0 ∧
    updateLatestSymlink .absent "arch" true = .ok (.link "arch" true) ∧
    build_cyhy_org_list [] = [] ∧
    ((main "info" [] notifsTwo genAllEmpty .absent "arch" 0).deletedOutOfScope =
        notifsTwo ∧
      (main "info" [] notifsTwo genAllEmpty .absent "arch" 0).notifsAfter = []) :=
  ⟨by decide, by decide, by decide, by decide,
    (main_out_of_scope_cleanup (by decide)
      (by decide :
        generate_notification_pdfs genAllEmpty (build_cyhy_org_list []) = .ok 0)
      (by decide :
        updateLatestSymlink .absent "arch" true = .ok (.link "arch" true))).2
      (by decide)⟩

/-- Claim C9 (counterexample): when the pre-existing `latest` path is a
dangling symbolic link, `os.path.exists` reports false, so the stale link is
not removed and recreation raises `FileExistsError` (leaving the dangling
link in place); a pre-existing directory fails too, inside `os.remove`. -/
theorem updateLatest_dangling_link_fails :
    path_exists (.link "stale" false) = false ∧
    updateLatestSymlink (.link "stale" false) "arch" true = .error .fileExistsError ∧
    updateLatestSymlink .dir "arch" true = .error .isADirectoryError := by
  decide

/-- Claim C9 (amended): whenever the pre-existing `latest` path is absent, a
regular file, or a symbolic link whose target exists, the old entry is removed
first and the link is recreated without failure, pointing at the existing
archive directory — hence not dangling.  (Over a dangling link or a directory
the block instead raises, per the counterexample.) -/
theorem updateLatest_replaces_existing (st : PathState) (target : String)
    (h : st = .absent ∨ st = .file ∨ ∃ t, st = .link t true) :
    updateLatestSymlink st target true = .ok (.link target true) := by
  rcases h with rfl | rfl | ⟨t, rfl⟩ <;> rfl

/-- Witness for the amended C9 theorem: replacing a live `latest` link. -/
theorem updateLatest_replaces_existing_witness :
    ((PathState.link "old" true) = .absent ∨ (PathState.link "old" true) = .file ∨
      ∃ t, (PathState.link "old" true) = .link t true) ∧
    updateLatestSymlink (.link "old" true) "arch" true = .ok (.link "arch" true) :=
  ⟨Or.inr (Or.inr ⟨"old", rfl⟩),
    updateLatest_replaces_existing (.link "old" true) "arch"
      (Or.inr (Or.inr ⟨"old", rfl⟩))⟩

end CyhyReports
